import Mathlib

/-!
Verification of the iOS app icon generator (`src/image_scale.py`).

The script is embedded shallowly:

* `IconSpec` and the three catalog lists mirror the class-level constants
  `IPHONE_ICONS`, `IPAD_ICONS`, `APP_STORE_ICON` of `AppIconGenerator`.
* Pixel arithmetic (`scaleFactorOfScale`, `pixelSize`) mirrors
  `int(icon.scale[0]) if icon.scale[0].isdigit() else 1` and
  `int(icon.size * scale_factor)`.
* PIL images are embedded as `ImageExpr`, a term language recording the
  operations the script applies (`convert`, `crop`, `resize`) on a source
  image of known dimensions and color mode; `width`, `height`, `mode`
  compute the corresponding PIL attributes.
* The whole run of `main` is embedded as `runMain : RunConfig → RunResult`,
  producing the ordered trace of filesystem effects (directory creation,
  icon writes, manifest write), the exit code and the error message, with
  the environment (does the input file exist, its dimensions and mode, the
  success of each per-entry save) supplied by `RunConfig`.
-/

/-- Mirrors the `IconSpec` dataclass.  `size` is `Rat` because the catalog
contains the fractional logical size `83.5` (exactly representable both as a
Python float and as a rational); all other sizes are integers. -/
structure IconSpec where
  size : Rat
  filename : String
  idiom : String
  scale : String
  role : Option String
  subgroup : Option String
deriving DecidableEq, Repr

/-- Mirrors `AppIconGenerator.IPHONE_ICONS`. -/
def IPHONE_ICONS : List IconSpec :=
  [⟨mkRat 60 1, "iphone_60pt@3x", "iphone", "3x", some "primary", none⟩,
   ⟨mkRat 60 1, "iphone_60pt@2x", "iphone", "2x", some "primary", none⟩,
   ⟨mkRat 40 1, "iphone_40pt@3x", "iphone", "3x", some "spotlight", none⟩,
   ⟨mkRat 40 1, "iphone_40pt@2x", "iphone", "2x", some "spotlight", none⟩,
   ⟨mkRat 29 1, "iphone_29pt@3x", "iphone", "3x", some "settings", none⟩,
   ⟨mkRat 29 1, "iphone_29pt@2x", "iphone", "2x", some "settings", none⟩,
   ⟨mkRat 20 1, "iphone_20pt@3x", "iphone", "3x", some "notification", none⟩,
   ⟨mkRat 20 1, "iphone_20pt@2x", "iphone", "2x", some "notification", none⟩]

/-- Mirrors `AppIconGenerator.IPAD_ICONS`. -/
def IPAD_ICONS : List IconSpec :=
  [⟨mkRat 167 2, "ipad_83.5pt@2x", "ipad", "2x", some "primary", none⟩,
   ⟨mkRat 76 1, "ipad_76pt@2x", "ipad", "2x", some "primary", none⟩,
   ⟨mkRat 40 1, "ipad_40pt@2x", "ipad", "2x", some "spotlight", none⟩,
   ⟨mkRat 40 1, "ipad_40pt", "ipad", "1x", some "spotlight", none⟩,
   ⟨mkRat 29 1, "ipad_29pt@2x", "ipad", "2x", some "settings", none⟩,
   ⟨mkRat 29 1, "ipad_29pt", "ipad", "1x", some "settings", none⟩,
   ⟨mkRat 20 1, "ipad_20pt@2x", "ipad", "2x", some "notification", none⟩,
   ⟨mkRat 20 1, "ipad_20pt", "ipad", "1x", some "notification", none⟩]

/-- Mirrors `AppIconGenerator.APP_STORE_ICON`. -/
def APP_STORE_ICON : List IconSpec :=
  [⟨mkRat 1024 1, "appstore", "ios-marketing", "1x", some "primary", none⟩]

/-- The catalog in the order both `generate_icons` and
`_generate_contents_json` iterate it:
`[self.IPHONE_ICONS, self.IPAD_ICONS, self.APP_STORE_ICON]` flattened. -/
def iosCatalog : List IconSpec := IPHONE_ICONS ++ IPAD_ICONS ++ APP_STORE_ICON

/-- Mirrors `int(icon.scale[0]) if icon.scale[0].isdigit() else 1`:
the first character of the scale string, as a digit, defaulting to 1.
The catalog only contains the nonempty scales "1x", "2x", "3x". -/
def scaleFactorOfScale (s : String) : Nat :=
  match s.data with
  | [] => 1
  | c :: _ => if c.isDigit then c.toNat - 48 else 1

/-- Mirrors `pixel_size = int(icon.size * scale_factor)`.  The product is
computed exactly (every catalog size is exactly representable as a Python
float, so the float product is exact) and `int()` truncates toward zero,
which on these nonnegative values is `(num * factor) / den` in integer
division. -/
def pixelSize (spec : IconSpec) : Nat :=
  ((spec.size.num * (scaleFactorOfScale spec.scale : Int)) / (spec.size.den : Int)).toNat

/-- Mirrors `f"{icon.filename}_{pixel_size}x{pixel_size}.png"`. -/
def outputFilename (spec : IconSpec) : String :=
  spec.filename ++ "_" ++ toString (pixelSize spec) ++ "x"
    ++ toString (pixelSize spec) ++ ".png"

/-- Python `str()` of the catalog's size values: integers print without a
decimal point (`60`), the one fractional value prints with a single decimal
digit (`83.5`), matching `f"{icon.size}"` on the `int` and `float` literals
of the catalog. -/
def pyNumStr (q : Rat) : String :=
  if q.den = 1 then toString q.num
  else toString (q.num / (q.den : Int)) ++ "." ++ toString ((q.num * 10 / (q.den : Int)) % 10)

/-- The three PIL resampling filters the script uses. -/
inductive PILFilter where
  | LANCZOS
  | BICUBIC
  | BILINEAR
deriving DecidableEq, Repr

/-- ASCII lowercasing of a character, as Python `str.lower` does on the
ASCII range (the quality keywords are ASCII). -/
def pyLowerChar (c : Char) : Char :=
  if 65 ≤ c.toNat ∧ c.toNat ≤ 90 then Char.ofNat (c.toNat + 32) else c

/-- Mirrors `self.quality.lower()` on ASCII strings. -/
def pyLower (s : String) : String := ⟨s.data.map pyLowerChar⟩

/-- The `quality_map` dict of `_get_resize_method`. -/
def quality_map : List (String × PILFilter) :=
  [("high", PILFilter.LANCZOS), ("medium", PILFilter.BICUBIC), ("low", PILFilter.BILINEAR)]

/-- Mirrors `_get_resize_method`:
`quality_map.get(self.quality.lower(), Image.LANCZOS)`. -/
def get_resize_method (quality : String) : PILFilter :=
  (quality_map.lookup (pyLower quality)).getD PILFilter.LANCZOS

/-- The decoded source image: the attributes of the PIL image the script
reads (`width`, `height`, `mode`). -/
structure InputImage where
  width : Nat
  height : Nat
  mode : String
deriving DecidableEq, Repr

/-- A PIL image as the term recording which operations produced it:
the opened source, `img.convert(mode)`, `img.crop((l, t, r, b))`, and
`img.resize((w, h), filter)`.  (`img.copy()` is the identity on content and
is not recorded.) -/
inductive ImageExpr where
  | source (img : InputImage)
  | convert (mode : String) (e : ImageExpr)
  | crop (left top right bottom : Nat) (e : ImageExpr)
  | resize (w h : Nat) (f : PILFilter) (e : ImageExpr)
deriving DecidableEq, Repr

/-- PIL `width` of each image term: a crop `(l, t, r, b)` has width
`r - l`, a resize to `(w, h)` has width `w`. -/
def ImageExpr.width : ImageExpr → Nat
  | .source img => img.width
  | .convert _ e => e.width
  | .crop l _ r _ _ => r - l
  | .resize w _ _ _ => w

/-- PIL `height` of each image term. -/
def ImageExpr.height : ImageExpr → Nat
  | .source img => img.height
  | .convert _ e => e.height
  | .crop _ t _ b _ => b - t
  | .resize _ h _ _ => h

/-- PIL `mode` of each image term: `convert` sets it, `crop` and `resize`
preserve it. -/
def ImageExpr.mode : ImageExpr → String
  | .source img => img.mode
  | .convert m _ => m
  | .crop _ _ _ _ e => e.mode
  | .resize _ _ _ e => e.mode

/-- The mode-normalization step of `_prepare_image`:
`if img.mode not in ('RGB', 'RGBA'): img = img.convert('RGBA')`. -/
def modeNormalize (img : InputImage) : ImageExpr :=
  if img.mode = "RGB" ∨ img.mode = "RGBA" then ImageExpr.source img
  else ImageExpr.convert "RGBA" (ImageExpr.source img)

/-- The center-crop step of `_prepare_image`: when the image is not square,
crop to the square of side `min(width, height)` with
`left = (width - min) // 2`, `top = (height - min) // 2`,
`right = left + min`, `bottom = top + min`. -/
def squareCrop (img : InputImage) (e : ImageExpr) : ImageExpr :=
  if img.width ≠ img.height then
    ImageExpr.crop
      ((img.width - min img.width img.height) / 2)
      ((img.height - min img.width img.height) / 2)
      ((img.width - min img.width img.height) / 2 + min img.width img.height)
      ((img.height - min img.width img.height) / 2 + min img.width img.height)
      e
  else e

/-- Mirrors `_upscale_image`: return the image unchanged when it is already
at least `target` wide, otherwise resize to `target×target` with the
hard-coded `Image.LANCZOS` filter. -/
def upscale_image (e : ImageExpr) (target : Nat) : ImageExpr :=
  if target ≤ e.width then e
  else ImageExpr.resize target target PILFilter.LANCZOS e

/-- Mirrors `_prepare_image`: normalize the mode, center-crop to a square
when needed, then upscale (to 1024) when `self.needs_upscaling` was set by
validation. -/
def prepare_image (img : InputImage) (needsUpscaling : Bool) : ImageExpr :=
  if needsUpscaling then upscale_image (squareCrop img (modeNormalize img)) 1024
  else squareCrop img (modeNormalize img)

/-- The flag `self.needs_upscaling` as `_validate_input_image` computes it
once the too-small check has passed: `min(width, height) < 1024`. -/
def needsUpscalingOf (img : InputImage) : Bool :=
  decide (min img.width img.height < 1024)

/-- A JSON scalar appearing in `Contents.json`: a string or a number. -/
inductive JVal where
  | s (v : String)
  | n (v : Int)
deriving DecidableEq, Repr

/-- The `Contents.json` document: the `"images"` array (each image an
object given as its ordered key/value list, so that an omitted key is
distinguishable from a `null` one) and the `"info"` object. -/
structure Manifest where
  images : List (List (String × JVal))
  info : List (String × JVal)
deriving DecidableEq, Repr

/-- The per-icon descriptor `_generate_contents_json` builds: the four
always-present keys in dict insertion order, then `"role"` when
`icon.role` is truthy, then `"subgroup"` when `icon.subgroup` is truthy. -/
def descriptorOf (spec : IconSpec) : List (String × JVal) :=
  [("size", JVal.s (pyNumStr spec.size ++ "x" ++ pyNumStr spec.size)),
   ("idiom", JVal.s spec.idiom),
   ("filename", JVal.s (outputFilename spec)),
   ("scale", JVal.s spec.scale)]
  ++ (match spec.role with
      | some r => if r ≠ "" then [("role", JVal.s r)] else []
      | none => [])
  ++ (match spec.subgroup with
      | some g => if g ≠ "" then [("subgroup", JVal.s g)] else []
      | none => [])

/-- The manifest `_generate_contents_json` writes: one descriptor per
catalog entry in catalog order, plus `{"version": 1, "author": "xcode"}`. -/
def contentsJson : Manifest :=
  { images := iosCatalog.map descriptorOf,
    info := [("version", JVal.n 1), ("author", JVal.s "xcode")] }

/-- Serialization of a scalar as `json.dump` renders it. -/
def renderJVal : JVal → String
  | JVal.s v => "\"" ++ v ++ "\""
  | JVal.n v => toString v

/-- Serialization of one object at indentation `ind`, as `json.dump`
with `indent=2` renders it. -/
def renderObj (ind : String) (fields : List (String × JVal)) : String :=
  "\x7b\n"
    ++ String.intercalate ",\n"
        (fields.map (fun kv => ind ++ "  \"" ++ kv.1 ++ "\": " ++ renderJVal kv.2))
    ++ "\n" ++ ind ++ "\x7d"

/-- Serialization of the whole manifest, as
`json.dump(contents, f, indent=2)` renders it. -/
def renderManifest (m : Manifest) : String :=
  "\x7b\n  \"images\": [\n"
    ++ String.intercalate ",\n" (m.images.map (renderObj "    "))
    ++ "\n  ],\n  \"info\": " ++ renderObj "  " m.info ++ "\n\x7d"

/-- One filesystem effect of a run: `os.makedirs` of a directory that did
not yet exist, the save of one resized icon (recorded with the image term
written), or the write of `Contents.json`. -/
inductive FsEvent where
  | ensureDir (path : String)
  | writeIcon (path : String) (img : ImageExpr)
  | writeManifest (path : String) (m : Manifest)
deriving DecidableEq, Repr

/-- The environment and arguments of one invocation of the script:
the CLI arguments, whether the input path resolves to a readable file and
what image it decodes to, whether the output directory tree pre-exists,
and — for each catalog index — whether resampling/saving that entry
succeeds (and the text of the exception when it does not). -/
structure RunConfig where
  inputPath : String
  outputDir : String
  quality : String
  inputExists : Bool
  input : InputImage
  iosDirExists : Bool
  entryOk : Nat → Bool
  entryErr : Nat → String

/-- The observable outcome of one invocation: exit code, the ordered trace
of filesystem effects, and the message printed on failure. -/
structure RunResult where
  exitCode : Nat
  events : List FsEvent
  errorMsg : Option String
deriving Repr

/-- Mirrors `os.path.join(output_dir, "ios")`. -/
def iosDir (cfg : RunConfig) : String := cfg.outputDir ++ "/ios"

/-- The directory-creation effects of `os.makedirs(self.ios_dir,
exist_ok=True)`: nothing when the tree pre-exists. -/
def dirEventsOf (cfg : RunConfig) : List FsEvent :=
  if cfg.iosDirExists then [] else [FsEvent.ensureDir (iosDir cfg)]

/-- The message of the `FileNotFoundError` raised by
`_validate_input_image`, as `main` prints it. -/
def notFoundMsg (path : String) : String :=
  "Error: Input file \x27" ++ path ++ "\x27 does not exist."

/-- The message of the `ValueError` raised by `_validate_input_image`, as
`main` prints it. -/
def tooSmallMsg (img : InputImage) : String :=
  "Error: Input image is too small (" ++ toString img.width ++ "x"
    ++ toString img.height ++ "). Minimum size is 512x512 pixels."

/-- The prepared image of a run that passed validation:
`_prepare_image` with `needs_upscaling` as validation set it. -/
def preparedOf (cfg : RunConfig) : ImageExpr :=
  prepare_image cfg.input (needsUpscalingOf cfg.input)

/-- The icon-save effect of `_process_image` for one catalog entry:
`img.resize((pixel_size, pixel_size), resize_method)` saved to
`os.path.join(self.ios_dir, output_filename)`. -/
def iconEventOf (cfg : RunConfig) (prepared : ImageExpr) (spec : IconSpec) : FsEvent :=
  FsEvent.writeIcon (iosDir cfg ++ "/" ++ outputFilename spec)
    (ImageExpr.resize (pixelSize spec) (pixelSize spec)
      (get_resize_method cfg.quality) prepared)

/-- The per-entry loop of `generate_icons`, starting at catalog index `k`:
each successful entry appends its save effect; the first failing entry
stops the loop with the message `generate_icons` prints for the caught
exception. -/
def emitIcons (cfg : RunConfig) (prepared : ImageExpr) :
    List IconSpec → Nat → List FsEvent × Option String
  | [], _ => ([], none)
  | spec :: rest, k =>
    if cfg.entryOk k then
      let res := emitIcons cfg prepared rest (k + 1)
      (iconEventOf cfg prepared spec :: res.1, res.2)
    else ([], some ("Error generating icons: " ++ cfg.entryErr k))

/-- The whole run of `main`: construct the generator (which creates the
output tree, then validates the input), then `generate_icons` (prepare,
loop over the catalog, write `Contents.json`), with exit code 1 on any
failure. -/
def runMain (cfg : RunConfig) : RunResult :=
  if cfg.inputExists then
    if min cfg.input.width cfg.input.height < 512 then
      ⟨1, dirEventsOf cfg, some (tooSmallMsg cfg.input)⟩
    else
      let r := emitIcons cfg (preparedOf cfg) iosCatalog 0
      if r.2 = none then
        ⟨0, dirEventsOf cfg ++ r.1
             ++ [FsEvent.writeManifest (iosDir cfg ++ "/Contents.json") contentsJson],
          none⟩
      else ⟨1, dirEventsOf cfg ++ r.1, r.2⟩
  else ⟨1, dirEventsOf cfg, some (notFoundMsg cfg.inputPath)⟩

/-- Projection: the manifest writes of a trace. -/
def manifestProj : FsEvent → Option Manifest
  | FsEvent.writeManifest _ m => some m
  | _ => none

/-- Projection: the icon writes of a trace, as (path, width, height). -/
def iconProj : FsEvent → Option (String × Nat × Nat)
  | FsEvent.writeIcon p i => some (p, i.width, i.height)
  | _ => none

/-- Projection: the paths of the icon writes of a trace. -/
def iconPathProj : FsEvent → Option String
  | FsEvent.writeIcon p _ => some p
  | _ => none

/-- Projection: the directories a trace created. -/
def dirProj : FsEvent → Option String
  | FsEvent.ensureDir p => some p
  | _ => none

/-- All manifests written during a run, in order. -/
def manifestsOf (r : RunResult) : List Manifest := r.events.filterMap manifestProj

/-- All icon files written during a run, in order, with their pixel
dimensions. -/
def iconWritesOf (r : RunResult) : List (String × Nat × Nat) :=
  r.events.filterMap iconProj

/-- The paths of all icon files written during a run, in order. -/
def iconPathsOf (r : RunResult) : List String := r.events.filterMap iconPathProj

/-- The directories a run created. -/
def dirsCreatedOf (r : RunResult) : List String := r.events.filterMap dirProj

/-! ### Helper lemmas -/

lemma scaleFactor_1x : scaleFactorOfScale "1x" = 1 := rfl

lemma scaleFactor_2x : scaleFactorOfScale "2x" = 2 := rfl

lemma scaleFactor_3x : scaleFactorOfScale "3x" = 3 := rfl

lemma modeNormalize_width (img : InputImage) :
    (modeNormalize img).width = img.width := by
  unfold modeNormalize; split <;> rfl

lemma modeNormalize_height (img : InputImage) :
    (modeNormalize img).height = img.height := by
  unfold modeNormalize; split <;> rfl

lemma modeNormalize_mode (img : InputImage) :
    (modeNormalize img).mode =
      if img.mode = "RGB" ∨ img.mode = "RGBA" then img.mode else "RGBA" := by
  unfold modeNormalize; split <;> simp_all [ImageExpr.mode]

lemma squareCrop_width (img : InputImage) (e : ImageExpr)
    (he : e.width = img.width) :
    (squareCrop img e).width = min img.width img.height := by
  unfold squareCrop
  split
  · simp [ImageExpr.width]
  · next h =>
    have hwh : img.width = img.height := by omega
    simp [he, hwh]

lemma squareCrop_height (img : InputImage) (e : ImageExpr)
    (he : e.height = img.height) :
    (squareCrop img e).height = min img.width img.height := by
  unfold squareCrop
  split
  · simp [ImageExpr.height]
  · next h =>
    have hwh : img.width = img.height := by omega
    simp [he, hwh]

lemma squareCrop_mode (img : InputImage) (e : ImageExpr) :
    (squareCrop img e).mode = e.mode := by
  unfold squareCrop; split <;> rfl

lemma croppedBase_width (img : InputImage) :
    (squareCrop img (modeNormalize img)).width = min img.width img.height :=
  squareCrop_width img _ (modeNormalize_width img)

lemma croppedBase_height (img : InputImage) :
    (squareCrop img (modeNormalize img)).height = min img.width img.height :=
  squareCrop_height img _ (modeNormalize_height img)

lemma upscale_image_mode (e : ImageExpr) (t : Nat) :
    (upscale_image e t).mode = e.mode := by
  unfold upscale_image; split <;> rfl

lemma prepare_image_mode (img : InputImage) (b : Bool) :
    (prepare_image img b).mode =
      if img.mode = "RGB" ∨ img.mode = "RGBA" then img.mode else "RGBA" := by
  unfold prepare_image
  split
  · rw [upscale_image_mode, squareCrop_mode, modeNormalize_mode]
  · rw [squareCrop_mode, modeNormalize_mode]

lemma prepare_image_false_eq (img : InputImage) :
    prepare_image img false = squareCrop img (modeNormalize img) := rfl

lemma prepare_image_true_of_small (img : InputImage)
    (h : min img.width img.height < 1024) :
    prepare_image img true =
      ImageExpr.resize 1024 1024 PILFilter.LANCZOS
        (squareCrop img (modeNormalize img)) := by
  unfold prepare_image upscale_image
  rw [if_pos rfl, if_neg]
  rw [croppedBase_width]
  omega

lemma emitIcons_ok (cfg : RunConfig) (prepared : ImageExpr) :
    ∀ (specs : List IconSpec) (k : Nat),
      (∀ j, j < specs.length → cfg.entryOk (k + j) = true) →
      emitIcons cfg prepared specs k = (specs.map (iconEventOf cfg prepared), none) := by
  intro specs
  induction specs with
  | nil => intro k _; rfl
  | cons spec rest ih =>
    intro k h
    have h0 : cfg.entryOk k = true := by simpa using h 0 (by simp)
    have hrest : ∀ j, j < rest.length → cfg.entryOk (k + 1 + j) = true := by
      intro j hj
      have := h (j + 1) (by simp; omega)
      simpa [show k + (j + 1) = k + 1 + j by omega] using this
    simp [emitIcons, h0, ih (k + 1) hrest]

lemma emitIcons_none_imp (cfg : RunConfig) (prepared : ImageExpr) :
    ∀ (specs : List IconSpec) (k : Nat),
      (emitIcons cfg prepared specs k).2 = none →
      ∀ j, j < specs.length → cfg.entryOk (k + j) = true := by
  intro specs
  induction specs with
  | nil => intro k _ j hj; simp at hj
  | cons spec rest ih =>
    intro k hnone j hj
    by_cases h0 : cfg.entryOk k = true
    · match j with
      | 0 => simpa using h0
      | j + 1 =>
        have hn : (emitIcons cfg prepared rest (k + 1)).2 = none := by
          simpa [emitIcons, h0] using hnone
        have := ih (k + 1) hn j (by simp at hj; omega)
        simpa [show k + (j + 1) = k + 1 + j by omega] using this
    · rw [Bool.not_eq_true] at h0
      simp [emitIcons, h0] at hnone

lemma emitIcons_events_icons (cfg : RunConfig) (prepared : ImageExpr) :
    ∀ (specs : List IconSpec) (k : Nat) (e : FsEvent),
      e ∈ (emitIcons cfg prepared specs k).1 → ∃ p i, e = FsEvent.writeIcon p i := by
  intro specs
  induction specs with
  | nil => intro k e he; simp [emitIcons] at he
  | cons spec rest ih =>
    intro k e he
    by_cases h0 : cfg.entryOk k = true
    · simp only [emitIcons, h0, if_true, List.mem_cons] at he
      rcases he with he | he
      · exact ⟨iosDir cfg ++ "/" ++ outputFilename spec,
          ImageExpr.resize (pixelSize spec) (pixelSize spec)
            (get_resize_method cfg.quality) prepared, he⟩
      · exact ih (k + 1) e he
    · rw [Bool.not_eq_true] at h0
      simp [emitIcons, h0] at he

lemma filterMap_manifestProj_dirEvents (cfg : RunConfig) :
    (dirEventsOf cfg).filterMap manifestProj = [] := by
  unfold dirEventsOf; split <;> rfl

lemma filterMap_iconProj_dirEvents (cfg : RunConfig) :
    (dirEventsOf cfg).filterMap iconProj = [] := by
  unfold dirEventsOf; split <;> rfl

lemma filterMap_iconPathProj_dirEvents (cfg : RunConfig) :
    (dirEventsOf cfg).filterMap iconPathProj = [] := by
  unfold dirEventsOf; split <;> rfl

lemma filterMap_manifestProj_emitIcons (cfg : RunConfig) (prepared : ImageExpr)
    (specs : List IconSpec) (k : Nat) :
    ((emitIcons cfg prepared specs k).1).filterMap manifestProj = [] := by
  rw [List.filterMap_eq_nil_iff]
  intro e he
  obtain ⟨p, i, rfl⟩ := emitIcons_events_icons cfg prepared specs k e he
  rfl

lemma filterMap_iconProj_map (cfg : RunConfig) (prepared : ImageExpr)
    (specs : List IconSpec) :
    (specs.map (iconEventOf cfg prepared)).filterMap iconProj =
      specs.map (fun spec =>
        (iosDir cfg ++ "/" ++ outputFilename spec, pixelSize spec, pixelSize spec)) := by
  induction specs with
  | nil => rfl
  | cons s rest ih =>
    simp only [List.map_cons, List.filterMap_cons]
    rw [ih]
    rfl

lemma filterMap_iconPathProj_map (cfg : RunConfig) (prepared : ImageExpr)
    (specs : List IconSpec) :
    (specs.map (iconEventOf cfg prepared)).filterMap iconPathProj =
      specs.map (fun spec => iosDir cfg ++ "/" ++ outputFilename spec) := by
  induction specs with
  | nil => rfl
  | cons s rest ih =>
    simp only [List.map_cons, List.filterMap_cons]
    rw [ih]
    rfl

lemma filterMap_manifestProj_map (cfg : RunConfig) (prepared : ImageExpr)
    (specs : List IconSpec) :
    (specs.map (iconEventOf cfg prepared)).filterMap manifestProj = [] := by
  induction specs with
  | nil => rfl
  | cons s rest ih =>
    simp only [List.map_cons, List.filterMap_cons]
    rw [ih]
    rfl

lemma runMain_notFound (cfg : RunConfig) (hex : cfg.inputExists = false) :
    runMain cfg = ⟨1, dirEventsOf cfg, some (notFoundMsg cfg.inputPath)⟩ := by
  simp [runMain, hex]

lemma runMain_tooSmall (cfg : RunConfig) (hex : cfg.inputExists = true)
    (hsmall : min cfg.input.width cfg.input.height < 512) :
    runMain cfg = ⟨1, dirEventsOf cfg, some (tooSmallMsg cfg.input)⟩ := by
  simp [runMain, hex, hsmall]

lemma runMain_success (cfg : RunConfig) (hex : cfg.inputExists = true)
    (hsz : 512 ≤ min cfg.input.width cfg.input.height)
    (hok : ∀ j, j < iosCatalog.length → cfg.entryOk j = true) :
    runMain cfg =
      ⟨0, dirEventsOf cfg ++ iosCatalog.map (iconEventOf cfg (preparedOf cfg))
           ++ [FsEvent.writeManifest (iosDir cfg ++ "/Contents.json") contentsJson],
        none⟩ := by
  have he := emitIcons_ok cfg (preparedOf cfg) iosCatalog 0
    (by intro j hj; simpa using hok j hj)
  have hns : ¬ min cfg.input.width cfg.input.height < 512 := by omega
  simp [runMain, hex, hns, he]

lemma runMain_entryFail (cfg : RunConfig) (hex : cfg.inputExists = true)
    (hsz : 512 ≤ min cfg.input.width cfg.input.height)
    (j : Nat) (hj : j < iosCatalog.length) (hfail : cfg.entryOk j = false) :
    (runMain cfg).exitCode = 1 ∧ manifestsOf (runMain cfg) = [] := by
  have hsome : ¬ (emitIcons cfg (preparedOf cfg) iosCatalog 0).2 = none := by
    intro hnone
    have h := emitIcons_none_imp cfg (preparedOf cfg) iosCatalog 0 hnone j hj
    rw [Nat.zero_add] at h
    rw [h] at hfail
    cases hfail
  have hns : ¬ min cfg.input.width cfg.input.height < 512 := by omega
  constructor
  · simp [runMain, hex, hns, hsome]
  · simp [runMain, hex, hns, hsome, manifestsOf, List.filterMap_append,
      filterMap_manifestProj_dirEvents, filterMap_manifestProj_emitIcons]

lemma prepare_image_mode_mem (img : InputImage) (b : Bool) :
    (prepare_image img b).mode = "RGB" ∨ (prepare_image img b).mode = "RGBA" := by
  rw [prepare_image_mode]
  split
  · next h => exact h
  · right; rfl

lemma iconProj_manifest (p : String) (m : Manifest) :
    iconProj (FsEvent.writeManifest p m) = none := rfl

lemma iconPathProj_manifest (p : String) (m : Manifest) :
    iconPathProj (FsEvent.writeManifest p m) = none := rfl

lemma manifestProj_manifest (p : String) (m : Manifest) :
    manifestProj (FsEvent.writeManifest p m) = some m := rfl

/-! ### Concrete run configurations used by witnesses and counterexamples -/

/-- A fully successful run: large square RGBA input, pre-existing output
tree, every save succeeding. -/
def wcfgOk : RunConfig :=
  ⟨"icon.png", "AppIcons", "high", true, ⟨2048, 2048, "RGBA"⟩, true,
    fun _ => true, fun _ => ""⟩

/-- A second successful run differing in path, quality, dimensions, mode
and pre-existing directories. -/
def wcfgOk2 : RunConfig :=
  ⟨"logo.png", "Out", "low", true, ⟨1500, 1500, "P"⟩, false,
    fun _ => true, fun _ => ""⟩

/-- A run whose input path does not resolve to a readable file, with no
pre-existing output directory. -/
def wcfgMissing : RunConfig :=
  ⟨"missing.png", "AppIcons", "high", false, ⟨1024, 1024, "RGB"⟩, false,
    fun _ => true, fun _ => ""⟩

/-- A run on a too-small input. -/
def wcfgSmall : RunConfig :=
  ⟨"small.png", "AppIcons", "high", true, ⟨300, 400, "RGB"⟩, true,
    fun _ => true, fun _ => ""⟩

/-- A run on a 600×600 input, which passes validation but triggers
upscaling. -/
def wcfg600 : RunConfig :=
  ⟨"mid.png", "AppIcons", "medium", true, ⟨600, 600, "RGB"⟩, true,
    fun _ => true, fun _ => ""⟩

/-- A run in which saving catalog entry 3 fails. -/
def wcfgFail : RunConfig :=
  ⟨"icon.png", "AppIcons", "high", true, ⟨2048, 2048, "RGB"⟩, true,
    fun k => decide (k ≠ 3), fun _ => "disk full"⟩

/-! ### Claims -/

/-- C1: for every catalog entry the pixel size used for both the resize
target and the output filename is `⌊logical size × scale factor⌋` (167 for
the 83.5pt 2x entry), it also equals `round(logical size × scale factor)`,
and on a valid square input ≥ 1024 px every written icon has exactly those
pixel dimensions, in catalog order. -/
theorem pixel_size_floor_round_and_output_dims (cfg : RunConfig)
    (hex : cfg.inputExists = true)
    (hsq : cfg.input.width = cfg.input.height)
    (hbig : 1024 ≤ cfg.input.width)
    (hok : ∀ j, cfg.entryOk j = true) :
    pixelSize ⟨mkRat 167 2, "ipad_83.5pt@2x", "ipad", "2x", some "primary", none⟩ = 167 ∧
    (∀ spec ∈ iosCatalog,
      (pixelSize spec : ℤ) = ⌊spec.size * (scaleFactorOfScale spec.scale : ℚ)⌋ ∧
      (pixelSize spec : ℤ) = round (spec.size * (scaleFactorOfScale spec.scale : ℚ))) ∧
    iconWritesOf (runMain cfg) =
      iosCatalog.map (fun spec =>
        (iosDir cfg ++ "/" ++ outputFilename spec, pixelSize spec, pixelSize spec)) := by
  refine ⟨by decide, ?_, ?_⟩
  · intro spec hspec
    fin_cases hspec <;> constructor <;>
      · simp only [pixelSize, scaleFactor_1x, scaleFactor_2x, scaleFactor_3x, round_eq]
        norm_num [Rat.mkRat_eq_div]
  · have hsz : 512 ≤ min cfg.input.width cfg.input.height := by omega
    rw [runMain_success cfg hex hsz (fun j _ => hok j)]
    simp only [iconWritesOf, List.filterMap_append, filterMap_iconProj_dirEvents,
      filterMap_iconProj_map, List.filterMap_cons, iconProj_manifest,
      List.filterMap_nil, List.nil_append, List.append_nil]

/-- C1 witness: the theorem applied to the concrete successful run
`wcfgOk`. -/
theorem pixel_size_floor_round_and_output_dims_witness :
    wcfgOk.inputExists = true ∧
    wcfgOk.input.width = wcfgOk.input.height ∧
    1024 ≤ wcfgOk.input.width ∧
    (∀ j, wcfgOk.entryOk j = true) ∧
    (pixelSize ⟨mkRat 167 2, "ipad_83.5pt@2x", "ipad", "2x", some "primary", none⟩ = 167 ∧
     (∀ spec ∈ iosCatalog,
       (pixelSize spec : ℤ) = ⌊spec.size * (scaleFactorOfScale spec.scale : ℚ)⌋ ∧
       (pixelSize spec : ℤ) = round (spec.size * (scaleFactorOfScale spec.scale : ℚ))) ∧
     iconWritesOf (runMain wcfgOk) =
       iosCatalog.map (fun spec =>
         (iosDir wcfgOk ++ "/" ++ outputFilename spec, pixelSize spec, pixelSize spec))) :=
  ⟨rfl, rfl, by decide, fun _ => rfl,
    pixel_size_floor_round_and_output_dims wcfgOk rfl rfl (by decide) (fun _ => rfl)⟩

/-- C2 counterexample: the input 600×700 (RGB) is accepted by validation
(min dimension 600 ≥ 512), is non-square, and its center crop is
`crop (0, 50, 600, 650)` — but the image `_prepare_image` returns is NOT
that crop: validation set `needs_upscaling`, so the returned image is the
1024×1024 LANCZOS upscale of the crop (its width is 1024, not 600). -/
theorem prepared_equals_center_crop_counterexample :
    512 ≤ min 600 700 ∧
    needsUpscalingOf ⟨600, 700, "RGB"⟩ = true ∧
    prepare_image ⟨600, 700, "RGB"⟩ (needsUpscalingOf ⟨600, 700, "RGB"⟩) ≠
      ImageExpr.crop 0 50 600 650 (ImageExpr.source ⟨600, 700, "RGB"⟩) ∧
    (prepare_image ⟨600, 700, "RGB"⟩ (needsUpscalingOf ⟨600, 700, "RGB"⟩)).width ≠ 600 := by
  decide

/-- C2 (amended): for every input accepted by validation the prepared image
is square and its mode is in the allow-list `{RGB, RGBA}`; for a non-square
input of dimensions W×H the prepared image is derived from the center crop
of side `min(W, H)` with left/top offsets `⌊(larger − min)/2⌋` (the odd
remainder absorbed by the right/bottom edge): it EQUALS that crop exactly
when `min(W, H) ≥ 1024`, and is the 1024×1024 LANCZOS upscale of that crop
when `min(W, H) < 1024`. -/
theorem prepared_square_mode_and_center_crop (img : InputImage)
    (hv : 512 ≤ min img.width img.height) :
    (prepare_image img (needsUpscalingOf img)).width =
      (prepare_image img (needsUpscalingOf img)).height ∧
    ((prepare_image img (needsUpscalingOf img)).mode = "RGB" ∨
      (prepare_image img (needsUpscalingOf img)).mode = "RGBA") ∧
    (img.width ≠ img.height →
      (1024 ≤ min img.width img.height →
        prepare_image img (needsUpscalingOf img) =
          ImageExpr.crop
            ((img.width - min img.width img.height) / 2)
            ((img.height - min img.width img.height) / 2)
            ((img.width - min img.width img.height) / 2 + min img.width img.height)
            ((img.height - min img.width img.height) / 2 + min img.width img.height)
            (modeNormalize img)) ∧
      (min img.width img.height < 1024 →
        prepare_image img (needsUpscalingOf img) =
          ImageExpr.resize 1024 1024 PILFilter.LANCZOS
            (ImageExpr.crop
              ((img.width - min img.width img.height) / 2)
              ((img.height - min img.width img.height) / 2)
              ((img.width - min img.width img.height) / 2 + min img.width img.height)
              ((img.height - min img.width img.height) / 2 + min img.width img.height)
              (modeNormalize img)))) := by
  by_cases hup : min img.width img.height < 1024
  · have hb : needsUpscalingOf img = true := by simp [needsUpscalingOf, hup]
    rw [hb, prepare_image_true_of_small img hup]
    refine ⟨rfl, ?_, ?_⟩
    · have := prepare_image_mode_mem img true
      rwa [prepare_image_true_of_small img hup] at this
    · intro hne
      refine ⟨fun habs => absurd habs (by omega), fun _ => ?_⟩
      rw [squareCrop, if_pos hne]
  · have hb : needsUpscalingOf img = false := by simp [needsUpscalingOf]; omega
    rw [hb, prepare_image_false_eq]
    refine ⟨?_, ?_, ?_⟩
    · rw [croppedBase_width, croppedBase_height]
    · have := prepare_image_mode_mem img false
      rwa [prepare_image_false_eq] at this
    · intro hne
      refine ⟨fun _ => ?_, fun habs => absurd habs (by omega)⟩
      rw [squareCrop, if_pos hne]

/-- C2 witness: the amended theorem applied to the non-square 2000×1500
RGB input of the spec's worked example. -/
theorem prepared_square_mode_and_center_crop_witness :
    512 ≤ min 2000 1500 ∧
    ((prepare_image ⟨2000, 1500, "RGB"⟩ (needsUpscalingOf ⟨2000, 1500, "RGB"⟩)).width =
      (prepare_image ⟨2000, 1500, "RGB"⟩ (needsUpscalingOf ⟨2000, 1500, "RGB"⟩)).height ∧
    ((prepare_image ⟨2000, 1500, "RGB"⟩ (needsUpscalingOf ⟨2000, 1500, "RGB"⟩)).mode = "RGB" ∨
      (prepare_image ⟨2000, 1500, "RGB"⟩ (needsUpscalingOf ⟨2000, 1500, "RGB"⟩)).mode = "RGBA") ∧
    ((2000 : Nat) ≠ 1500 →
      (1024 ≤ min 2000 1500 →
        prepare_image ⟨2000, 1500, "RGB"⟩ (needsUpscalingOf ⟨2000, 1500, "RGB"⟩) =
          ImageExpr.crop ((2000 - min 2000 1500) / 2) ((1500 - min 2000 1500) / 2)
            ((2000 - min 2000 1500) / 2 + min 2000 1500)
            ((1500 - min 2000 1500) / 2 + min 2000 1500)
            (modeNormalize ⟨2000, 1500, "RGB"⟩)) ∧
      (min 2000 1500 < 1024 →
        prepare_image ⟨2000, 1500, "RGB"⟩ (needsUpscalingOf ⟨2000, 1500, "RGB"⟩) =
          ImageExpr.resize 1024 1024 PILFilter.LANCZOS
            (ImageExpr.crop ((2000 - min 2000 1500) / 2) ((1500 - min 2000 1500) / 2)
              ((2000 - min 2000 1500) / 2 + min 2000 1500)
              ((1500 - min 2000 1500) / 2 + min 2000 1500)
              (modeNormalize ⟨2000, 1500, "RGB"⟩))))) :=
  ⟨by decide, prepared_square_mode_and_center_crop ⟨2000, 1500, "RGB"⟩ (by decide)⟩

/-- C3: in any run (any requested quality), an input whose min dimension is
in [512, 1024) is prepared to exactly 1024×1024 via a resize that always
uses `LANCZOS` — the filter is hard-coded in `_upscale_image` and does not
depend on `cfg.quality`, which is universally quantified here — while an
input with min dimension ≥ 1024 is left at its native square size
(the center-crop square of side `min(width, height)`, with no resize). -/
theorem upscale_to_1024_lanczos_and_native_size (cfg : RunConfig)
    (hv : 512 ≤ min cfg.input.width cfg.input.height) :
    (min cfg.input.width cfg.input.height < 1024 →
      (preparedOf cfg).width = 1024 ∧ (preparedOf cfg).height = 1024 ∧
      preparedOf cfg =
        ImageExpr.resize 1024 1024 PILFilter.LANCZOS
          (squareCrop cfg.input (modeNormalize cfg.input))) ∧
    (1024 ≤ min cfg.input.width cfg.input.height →
      preparedOf cfg = squareCrop cfg.input (modeNormalize cfg.input) ∧
      (preparedOf cfg).width = min cfg.input.width cfg.input.height ∧
      (preparedOf cfg).height = min cfg.input.width cfg.input.height) := by
  constructor
  · intro hup
    have hb : needsUpscalingOf cfg.input = true := by simp [needsUpscalingOf, hup]
    unfold preparedOf
    rw [hb, prepare_image_true_of_small cfg.input hup]
    exact ⟨rfl, rfl, rfl⟩
  · intro hge
    have hb : needsUpscalingOf cfg.input = false := by simp [needsUpscalingOf]; omega
    unfold preparedOf
    rw [hb, prepare_image_false_eq]
    exact ⟨rfl, croppedBase_width cfg.input, croppedBase_height cfg.input⟩

/-- C3 witness: the theorem applied to the 600×600 run `wcfg600`, whose
min dimension lies in [512, 1024). -/
theorem upscale_to_1024_lanczos_and_native_size_witness :
    512 ≤ min wcfg600.input.width wcfg600.input.height ∧
    ((min wcfg600.input.width wcfg600.input.height < 1024 →
      (preparedOf wcfg600).width = 1024 ∧ (preparedOf wcfg600).height = 1024 ∧
      preparedOf wcfg600 =
        ImageExpr.resize 1024 1024 PILFilter.LANCZOS
          (squareCrop wcfg600.input (modeNormalize wcfg600.input))) ∧
    (1024 ≤ min wcfg600.input.width wcfg600.input.height →
      preparedOf wcfg600 = squareCrop wcfg600.input (modeNormalize wcfg600.input) ∧
      (preparedOf wcfg600).width = min wcfg600.input.width wcfg600.input.height ∧
      (preparedOf wcfg600).height = min wcfg600.input.width wcfg600.input.height)) :=
  ⟨by decide, upscale_to_1024_lanczos_and_native_size wcfg600 (by decide)⟩

/-- C4: on a successful run every one of the 17 catalog entries (8 iphone,
8 ipad, 1 ios-marketing) produces exactly one PNG, named
`{stem}_{pixelSize}x{pixelSize}.png` inside the `ios` subdirectory of the
output directory, written in catalog order; entries resolving to the same
pixel size (e.g. the two entries of pixel size 120) are not deduplicated —
the path list equals the catalog map, one path per entry. -/
theorem every_catalog_entry_one_output_file (cfg : RunConfig)
    (hex : cfg.inputExists = true)
    (hsz : 512 ≤ min cfg.input.width cfg.input.height)
    (hok : ∀ j, cfg.entryOk j = true) :
    iconPathsOf (runMain cfg) =
      iosCatalog.map (fun spec => iosDir cfg ++ "/" ++ outputFilename spec) ∧
    (iconPathsOf (runMain cfg)).length = 17 ∧
    IPHONE_ICONS.length = 8 ∧ IPAD_ICONS.length = 8 ∧ APP_STORE_ICON.length = 1 ∧
    (∀ s ∈ IPHONE_ICONS, s.idiom = "iphone") ∧
    (∀ s ∈ IPAD_ICONS, s.idiom = "ipad") ∧
    (∀ s ∈ APP_STORE_ICON, s.idiom = "ios-marketing") ∧
    (iosCatalog.map pixelSize).count 120 = 2 := by
  have hrm := runMain_success cfg hex hsz (fun j _ => hok j)
  have hpaths : iconPathsOf (runMain cfg) =
      iosCatalog.map (fun spec => iosDir cfg ++ "/" ++ outputFilename spec) := by
    rw [hrm]
    simp only [iconPathsOf, List.filterMap_append, filterMap_iconPathProj_dirEvents,
      filterMap_iconPathProj_map, List.filterMap_cons, iconPathProj_manifest,
      List.filterMap_nil, List.nil_append, List.append_nil]
  refine ⟨hpaths, ?_, by decide, by decide, by decide, by decide, by decide,
    by decide, by decide⟩
  rw [hpaths, List.length_map]
  decide

/-- C4 witness: the theorem applied to the concrete successful run
`wcfgOk2`. -/
theorem every_catalog_entry_one_output_file_witness :
    wcfgOk2.inputExists = true ∧
    512 ≤ min wcfgOk2.input.width wcfgOk2.input.height ∧
    (∀ j, wcfgOk2.entryOk j = true) ∧
    (iconPathsOf (runMain wcfgOk2) =
      iosCatalog.map (fun spec => iosDir wcfgOk2 ++ "/" ++ outputFilename spec) ∧
    (iconPathsOf (runMain wcfgOk2)).length = 17 ∧
    IPHONE_ICONS.length = 8 ∧ IPAD_ICONS.length = 8 ∧ APP_STORE_ICON.length = 1 ∧
    (∀ s ∈ IPHONE_ICONS, s.idiom = "iphone") ∧
    (∀ s ∈ IPAD_ICONS, s.idiom = "ipad") ∧
    (∀ s ∈ APP_STORE_ICON, s.idiom = "ios-marketing") ∧
    (iosCatalog.map pixelSize).count 120 = 2) :=
  ⟨rfl, by decide, fun _ => rfl,
    every_catalog_entry_one_output_file wcfgOk2 rfl (by decide) (fun _ => rfl)⟩

/-- C5: a successful run writes exactly the manifest `contentsJson`, which
has one descriptor per catalog entry in catalog order; each descriptor
carries `size = "<logicalSize>x<logicalSize>"`, `idiom`, `filename` (the
computed PNG name) and `scale`; the `role` and `subgroup` keys are omitted
entirely (they are simply not keys of the object) when absent; and the
fixed info block is `{"version": 1, "author": "xcode"}`. -/
theorem contents_json_manifest_shape (cfg : RunConfig)
    (hex : cfg.inputExists = true)
    (hsz : 512 ≤ min cfg.input.width cfg.input.height)
    (hok : ∀ j, cfg.entryOk j = true) :
    manifestsOf (runMain cfg) = [contentsJson] ∧
    contentsJson.images = iosCatalog.map descriptorOf ∧
    contentsJson.images.length = 17 ∧
    contentsJson.info = [("version", JVal.n 1), ("author", JVal.s "xcode")] ∧
    (∀ spec ∈ iosCatalog,
      (descriptorOf spec).lookup "size" =
        some (JVal.s (pyNumStr spec.size ++ "x" ++ pyNumStr spec.size)) ∧
      (descriptorOf spec).lookup "idiom" = some (JVal.s spec.idiom) ∧
      (descriptorOf spec).lookup "filename" = some (JVal.s (outputFilename spec)) ∧
      (descriptorOf spec).lookup "scale" = some (JVal.s spec.scale)) ∧
    (∀ spec : IconSpec, spec.role = none →
      "role" ∉ (descriptorOf spec).map Prod.fst) ∧
    (∀ spec : IconSpec, spec.subgroup = none →
      "subgroup" ∉ (descriptorOf spec).map Prod.fst) := by
  have hrm := runMain_success cfg hex hsz (fun j _ => hok j)
  refine ⟨?_, rfl, by decide, rfl, by decide, ?_, ?_⟩
  · rw [hrm]
    simp only [manifestsOf, List.filterMap_append, filterMap_manifestProj_dirEvents,
      filterMap_manifestProj_map, List.filterMap_cons, manifestProj_manifest,
      List.filterMap_nil, List.nil_append, List.append_nil]
  · intro spec h
    unfold descriptorOf
    rw [h]
    rcases spec.subgroup with _ | g
    · simp
    · by_cases hg : g = ""
      · simp [hg]
      · simp [hg]
  · intro spec h
    unfold descriptorOf
    rw [h]
    rcases spec.role with _ | r
    · simp
    · by_cases hr : r = ""
      · simp [hr]
      · simp [hr]

/-- C5 witness: the theorem applied to the concrete successful run
`wcfgOk`. -/
theorem contents_json_manifest_shape_witness :
    wcfgOk.inputExists = true ∧
    512 ≤ min wcfgOk.input.width wcfgOk.input.height ∧
    (∀ j, wcfgOk.entryOk j = true) ∧
    (manifestsOf (runMain wcfgOk) = [contentsJson] ∧
    contentsJson.images = iosCatalog.map descriptorOf ∧
    contentsJson.images.length = 17 ∧
    contentsJson.info = [("version", JVal.n 1), ("author", JVal.s "xcode")] ∧
    (∀ spec ∈ iosCatalog,
      (descriptorOf spec).lookup "size" =
        some (JVal.s (pyNumStr spec.size ++ "x" ++ pyNumStr spec.size)) ∧
      (descriptorOf spec).lookup "idiom" = some (JVal.s spec.idiom) ∧
      (descriptorOf spec).lookup "filename" = some (JVal.s (outputFilename spec)) ∧
      (descriptorOf spec).lookup "scale" = some (JVal.s spec.scale)) ∧
    (∀ spec : IconSpec, spec.role = none →
      "role" ∉ (descriptorOf spec).map Prod.fst) ∧
    (∀ spec : IconSpec, spec.subgroup = none →
      "subgroup" ∉ (descriptorOf spec).map Prod.fst)) :=
  ⟨rfl, by decide, fun _ => rfl,
    contents_json_manifest_shape wcfgOk rfl (by decide) (fun _ => rfl)⟩

/-- C6 counterexample: on a missing input with a not-yet-existing output
directory, the run does exit 1 with a message identifying the path and
writes no files — but the output directory tree IS created:
`AppIconGenerator.__init__` calls `os.makedirs(self.ios_dir, exist_ok=True)`
BEFORE `_validate_input_image`, so the claim's "no directories created" is
false. -/
theorem missing_input_no_side_effects_counterexample :
    wcfgMissing.inputExists = false ∧
    wcfgMissing.iosDirExists = false ∧
    (runMain wcfgMissing).exitCode = 1 ∧
    (runMain wcfgMissing).errorMsg = some (notFoundMsg "missing.png") ∧
    dirsCreatedOf (runMain wcfgMissing) = ["AppIcons/ios"] ∧
    dirsCreatedOf (runMain wcfgMissing) ≠ [] := by
  decide

/-- C6 (amended): when the input path does not resolve to a readable file
the run fails with exit code 1, the error message identifies the path, and
no icon or manifest files are written — but the output directory tree
(`outDir/ios`) is created when it did not pre-exist, because directory
creation happens before validation. -/
theorem missing_input_fails_without_file_writes (cfg : RunConfig)
    (hex : cfg.inputExists = false) :
    (runMain cfg).exitCode = 1 ∧
    (runMain cfg).errorMsg = some (notFoundMsg cfg.inputPath) ∧
    iconWritesOf (runMain cfg) = [] ∧
    manifestsOf (runMain cfg) = [] ∧
    dirsCreatedOf (runMain cfg) =
      (if cfg.iosDirExists then [] else [iosDir cfg]) := by
  rw [runMain_notFound cfg hex]
  refine ⟨rfl, rfl, ?_, ?_, ?_⟩
  · exact filterMap_iconProj_dirEvents cfg
  · exact filterMap_manifestProj_dirEvents cfg
  · unfold dirsCreatedOf dirEventsOf
    split <;> rfl

/-- C6 witness: the amended theorem applied to the concrete missing-input
run `wcfgMissing`. -/
theorem missing_input_fails_without_file_writes_witness :
    wcfgMissing.inputExists = false ∧
    ((runMain wcfgMissing).exitCode = 1 ∧
    (runMain wcfgMissing).errorMsg = some (notFoundMsg wcfgMissing.inputPath) ∧
    iconWritesOf (runMain wcfgMissing) = [] ∧
    manifestsOf (runMain wcfgMissing) = [] ∧
    dirsCreatedOf (runMain wcfgMissing) =
      (if wcfgMissing.iosDirExists then [] else [iosDir wcfgMissing])) :=
  ⟨rfl, missing_input_fails_without_file_writes wcfgMissing rfl⟩

/-- C7: a readable input with `min(width, height) < 512` fails validation
with the too-small error message, the run exits with code 1, and no icon
or manifest files are written. -/
theorem too_small_input_fails_without_file_writes (cfg : RunConfig)
    (hex : cfg.inputExists = true)
    (hsmall : min cfg.input.width cfg.input.height < 512) :
    (runMain cfg).exitCode = 1 ∧
    (runMain cfg).errorMsg = some (tooSmallMsg cfg.input) ∧
    iconWritesOf (runMain cfg) = [] ∧
    manifestsOf (runMain cfg) = [] := by
  rw [runMain_tooSmall cfg hex hsmall]
  exact ⟨rfl, rfl, filterMap_iconProj_dirEvents cfg, filterMap_manifestProj_dirEvents cfg⟩

/-- C7 witness: the theorem applied to the concrete 300×400 run
`wcfgSmall`. -/
theorem too_small_input_fails_without_file_writes_witness :
    wcfgSmall.inputExists = true ∧
    min wcfgSmall.input.width wcfgSmall.input.height < 512 ∧
    ((runMain wcfgSmall).exitCode = 1 ∧
    (runMain wcfgSmall).errorMsg = some (tooSmallMsg wcfgSmall.input) ∧
    iconWritesOf (runMain wcfgSmall) = [] ∧
    manifestsOf (runMain wcfgSmall) = []) :=
  ⟨rfl, by decide, too_small_input_fails_without_file_writes wcfgSmall rfl (by decide)⟩

/-- C8: past validation, if resampling/saving any single catalog entry
fails the whole run aborts with a non-zero exit code and no manifest is
ever written; when every entry succeeds the trace is exactly the directory
events, then all 17 icon writes in catalog order, then the single manifest
write — so the manifest is written exactly once, after all icon files. -/
theorem entry_failure_aborts_and_manifest_last (cfg : RunConfig)
    (hex : cfg.inputExists = true)
    (hsz : 512 ≤ min cfg.input.width cfg.input.height) :
    ((∃ j, j < iosCatalog.length ∧ cfg.entryOk j = false) →
      (runMain cfg).exitCode ≠ 0 ∧ manifestsOf (runMain cfg) = []) ∧
    ((∀ j, j < iosCatalog.length → cfg.entryOk j = true) →
      (runMain cfg).exitCode = 0 ∧
      (runMain cfg).events =
        dirEventsOf cfg ++ iosCatalog.map (iconEventOf cfg (preparedOf cfg))
          ++ [FsEvent.writeManifest (iosDir cfg ++ "/Contents.json") contentsJson] ∧
      manifestsOf (runMain cfg) = [contentsJson] ∧
      (iosCatalog.map (iconEventOf cfg (preparedOf cfg))).length = 17) := by
  constructor
  · rintro ⟨j, hj, hfail⟩
    have := runMain_entryFail cfg hex hsz j hj hfail
    exact ⟨by omega, this.2⟩
  · intro hok
    have hrm := runMain_success cfg hex hsz hok
    refine ⟨by rw [hrm], by rw [hrm], ?_, by rw [List.length_map]; decide⟩
    rw [hrm]
    simp only [manifestsOf, List.filterMap_append, filterMap_manifestProj_dirEvents,
      filterMap_manifestProj_map, List.filterMap_cons, manifestProj_manifest,
      List.filterMap_nil, List.nil_append, List.append_nil]

/-- C8 witness: the theorem applied to the run `wcfgFail`, in which saving
catalog entry 3 fails. -/
theorem entry_failure_aborts_and_manifest_last_witness :
    wcfgFail.inputExists = true ∧
    512 ≤ min wcfgFail.input.width wcfgFail.input.height ∧
    (((∃ j, j < iosCatalog.length ∧ wcfgFail.entryOk j = false) →
      (runMain wcfgFail).exitCode ≠ 0 ∧ manifestsOf (runMain wcfgFail) = []) ∧
    ((∀ j, j < iosCatalog.length → wcfgFail.entryOk j = true) →
      (runMain wcfgFail).exitCode = 0 ∧
      (runMain wcfgFail).events =
        dirEventsOf wcfgFail
          ++ iosCatalog.map (iconEventOf wcfgFail (preparedOf wcfgFail))
          ++ [FsEvent.writeManifest (iosDir wcfgFail ++ "/Contents.json") contentsJson] ∧
      manifestsOf (runMain wcfgFail) = [contentsJson] ∧
      (iosCatalog.map (iconEventOf wcfgFail (preparedOf wcfgFail))).length = 17)) :=
  ⟨rfl, by decide, entry_failure_aborts_and_manifest_last wcfgFail rfl (by decide)⟩

lemma manifestsOf_runMain (cfg : RunConfig) :
    manifestsOf (runMain cfg) = [] ∨ manifestsOf (runMain cfg) = [contentsJson] := by
  unfold runMain
  by_cases hex : cfg.inputExists = true
  · by_cases hsm : min cfg.input.width cfg.input.height < 512
    · left
      simp only [hex, if_true, hsm]
      exact filterMap_manifestProj_dirEvents cfg
    · by_cases hr : (emitIcons cfg (preparedOf cfg) iosCatalog 0).2 = none
      · right
        simp only [hex, if_true, hsm, if_false, hr]
        simp only [manifestsOf, List.filterMap_append, filterMap_manifestProj_dirEvents,
          filterMap_manifestProj_emitIcons, List.filterMap_cons, manifestProj_manifest,
          List.filterMap_nil, List.nil_append, List.append_nil]
      · left
        simp only [hex, if_true, hsm, if_false, hr]
        simp only [manifestsOf, List.filterMap_append, filterMap_manifestProj_dirEvents,
          filterMap_manifestProj_emitIcons, List.append_nil, List.nil_append]
  · left
    simp only [hex, if_false]
    exact filterMap_manifestProj_dirEvents cfg

/-- C9: the manifest is a deterministic function of the fixed catalog —
any two runs that each wrote a manifest (whatever their input image,
output directory or quality) wrote the same manifest value, hence
byte-identical serialized JSON. -/
theorem manifest_byte_identical_across_runs (cfg1 cfg2 : RunConfig)
    (m1 m2 : Manifest)
    (h1 : manifestsOf (runMain cfg1) = [m1])
    (h2 : manifestsOf (runMain cfg2) = [m2]) :
    m1 = m2 ∧ renderManifest m1 = renderManifest m2 := by
  have e1 : m1 = contentsJson := by
    rcases manifestsOf_runMain cfg1 with h | h <;> rw [h1] at h
    · cases h
    · simpa using h
  have e2 : m2 = contentsJson := by
    rcases manifestsOf_runMain cfg2 with h | h <;> rw [h2] at h
    · cases h
    · simpa using h
  rw [e1, e2]
  exact ⟨rfl, rfl⟩

/-- C9 witness: the theorem applied to the two distinct successful runs
`wcfgOk` and `wcfgOk2`. -/
theorem manifest_byte_identical_across_runs_witness :
    manifestsOf (runMain wcfgOk) = [contentsJson] ∧
    manifestsOf (runMain wcfgOk2) = [contentsJson] ∧
    (contentsJson = contentsJson ∧
      renderManifest contentsJson = renderManifest contentsJson) :=
  ⟨by decide, by decide,
    manifest_byte_identical_across_runs wcfgOk wcfgOk2 contentsJson contentsJson
      (by decide) (by decide)⟩

/-- C10: the quality-to-filter selection is case-insensitive (it only
depends on the lowercased string) and maps "high"/"medium"/"low" to
LANCZOS/BICUBIC/BILINEAR, with every other string silently falling back to
LANCZOS — `_get_resize_method` is total, so icon generation never fails on
an unrecognized quality value. -/
theorem resize_method_case_insensitive_total (q1 q2 : String)
    (h : pyLower q1 = pyLower q2) :
    get_resize_method q1 = get_resize_method q2 ∧
    (pyLower q1 = "high" → get_resize_method q1 = PILFilter.LANCZOS) ∧
    (pyLower q1 = "medium" → get_resize_method q1 = PILFilter.BICUBIC) ∧
    (pyLower q1 = "low" → get_resize_method q1 = PILFilter.BILINEAR) ∧
    (pyLower q1 ≠ "high" → pyLower q1 ≠ "medium" → pyLower q1 ≠ "low" →
      get_resize_method q1 = PILFilter.LANCZOS) := by
  refine ⟨by simp only [get_resize_method, h], ?_, ?_, ?_, ?_⟩
  · intro hq
    simp only [get_resize_method, hq]
    decide
  · intro hq
    simp only [get_resize_method, hq]
    decide
  · intro hq
    simp only [get_resize_method, hq]
    decide
  · intro h1 h2 h3
    have e1 : (pyLower q1 == "high") = false := beq_eq_false_iff_ne.mpr h1
    have e2 : (pyLower q1 == "medium") = false := beq_eq_false_iff_ne.mpr h2
    have e3 : (pyLower q1 == "low") = false := beq_eq_false_iff_ne.mpr h3
    simp [get_resize_method, quality_map, List.lookup, e1, e2, e3]

/-- C10 witness: the theorem applied to the two casing variants "HIGH" and
"High". -/
theorem resize_method_case_insensitive_total_witness :
    pyLower "HIGH" = pyLower "High" ∧
    (get_resize_method "HIGH" = get_resize_method "High" ∧
    (pyLower "HIGH" = "high" → get_resize_method "HIGH" = PILFilter.LANCZOS) ∧
    (pyLower "HIGH" = "medium" → get_resize_method "HIGH" = PILFilter.BICUBIC) ∧
    (pyLower "HIGH" = "low" → get_resize_method "HIGH" = PILFilter.BILINEAR) ∧
    (pyLower "HIGH" ≠ "high" → pyLower "HIGH" ≠ "medium" → pyLower "HIGH" ≠ "low" →
      get_resize_method "HIGH" = PILFilter.LANCZOS)) :=
  ⟨by decide, resize_method_case_insensitive_total "HIGH" "High" (by decide)⟩
